import Mathlib

/-!
Shallow embedding of the `ya_psd_rs` PSD parser (Rust) in Lean 4.

Conventions:
* A Rust `&[u8]` is a `List Nat` whose elements are byte values.
* Every nom-style parser `fn(&[u8]) -> IResult<&[u8], T>` becomes a
  `List Nat → Option (List Nat × T)`; `none` covers both a returned nom
  error and a Rust panic (out-of-bounds slice, `unwrap`, `expect`,
  `assert!`), except at the top level where `parse_psd` distinguishes
  them (see `ParseOutcome`).
* `Cow<'a, [u8]>` becomes the two-constructor `Cow` type below, keeping
  the borrowed/owned distinction that `into_static` manipulates.
* `OnceCell` caches become `Option` fields (`none` = not yet filled).
* Machine integers are `Nat`/`Int`; wrap-around is written with an
  explicit `% 4294967296` where the Rust code can overflow a `u32`.
* Rust `while` loops that do not structurally descend are written with
  explicit fuel; the fuel is always at least the loop's iteration bound
  for the inputs the Rust code can reach.
-/

namespace YaPsd

/-! ### Primitive big-endian readers (nom `be_u8`/`be_u16`/`be_u32`, `tag`, `take`) -/

def readU8 : List Nat → Option (Nat × List Nat)
  | [] => none
  | b :: r => some (b, r)

def readU16 : List Nat → Option (Nat × List Nat)
  | a :: b :: r => some (a * 256 + b, r)
  | _ => none

def readU32 : List Nat → Option (Nat × List Nat)
  | a :: b :: c :: d :: r => some (((a * 256 + b) * 256 + c) * 256 + d, r)
  | _ => none

/-- Reinterpret an unsigned 16-bit value as a signed one (two's complement). -/
def toI16 (v : Nat) : Int :=
  if v < 32768 then (v : Int) else (v : Int) - 65536

/-- Reinterpret an unsigned 32-bit value as a signed one (two's complement). -/
def toI32 (v : Nat) : Int :=
  if v < 2147483648 then (v : Int) else (v : Int) - 4294967296

def readI16 (i : List Nat) : Option (Int × List Nat) :=
  (readU16 i).map fun vr => (toI16 vr.1, vr.2)

def readI32 (i : List Nat) : Option (Int × List Nat) :=
  (readU32 i).map fun vr => (toI32 vr.1, vr.2)

/-- nom `tag`: succeeds iff the input starts with `t`, consuming it. -/
def readTag (t : List Nat) (i : List Nat) : Option (List Nat) :=
  if i.take t.length = t then some (i.drop t.length) else none

/-- nom `take(n)`: returns `(remaining, taken)`, mirroring `IResult` order. -/
def readTake (n : Nat) (i : List Nat) : Option (List Nat × List Nat) :=
  if n ≤ i.length then some (i.drop n, i.take n) else none

/-- Rust `as u32` on an `i32` value: two's-complement truncation. -/
def intAsU32 (v : Int) : Nat :=
  (v % 4294967296).toNat

/-! ### `Cow<'a, [u8]>` -/

inductive Cow where
  | borrowed (data : List Nat)
  | owned (data : List Nat)
  deriving DecidableEq, Repr

def Cow.val : Cow → List Nat
  | .borrowed d => d
  | .owned d => d

/-- `Cow::into_owned` clones a borrowed slice, moves an owned one. -/
def Cow.into_owned (c : Cow) : List Nat := c.val

def Cow.into_static (c : Cow) : Cow := .owned c.into_owned

/-! ### `header.rs` -/

inductive ColorMode where
  | Bitmap | Grayscale | Indexed | RGB | CMYK | Multichannel | Duotone | Lab
  deriving DecidableEq, Repr

def ColorMode.from_u16 : Nat → Option ColorMode
  | 0 => some .Bitmap
  | 1 => some .Grayscale
  | 2 => some .Indexed
  | 3 => some .RGB
  | 4 => some .CMYK
  | 7 => some .Multichannel
  | 8 => some .Duotone
  | 9 => some .Lab
  | _ => none

structure PsdHeader where
  version : Nat
  channels : Nat
  height : Nat
  width : Nat
  depth : Nat
  color_mode : ColorMode
  deriving DecidableEq, Repr

def parse_header (i : List Nat) : Option (List Nat × PsdHeader) :=
  match readTag [0x38, 0x42, 0x50, 0x53] i with
  | none => none
  | some i =>
  match readU16 i with
  | none => none
  | some (version, i) =>
  if version = 1 then
    match readTag [0, 0, 0, 0, 0, 0] i with
    | none => none
    | some i =>
    match readU16 i with
    | none => none
    | some (channels, i) =>
    if 1 ≤ channels ∧ channels ≤ 56 then
      match readU32 i with
      | none => none
      | some (height, i) =>
      if 1 ≤ height ∧ height ≤ 30000 then
        match readU32 i with
        | none => none
        | some (width, i) =>
        if 1 ≤ width ∧ width ≤ 30000 then
          match readU16 i with
          | none => none
          | some (depth, i) =>
          if depth ∈ [1, 8, 16, 32] then
            match readU16 i with
            | none => none
            | some (cm, i) =>
            match ColorMode.from_u16 cm with
            | none => none
            | some color_mode =>
              some (i, ⟨1, channels, height, width, depth, color_mode⟩)
          else none
        else none
      else none
    else none
  else none

/-! ### `color_mode.rs` -/

structure ColorModeData where
  data : Cow
  deriving DecidableEq, Repr

def ColorModeData.into_static (c : ColorModeData) : ColorModeData :=
  ⟨c.data.into_static⟩

def parse_color_mode (i : List Nat) (header : PsdHeader) :
    Option (List Nat × ColorModeData) :=
  (match header.color_mode with
    | .Indexed => (readU32 i).bind fun li => if li.1 = 768 then some li else none
    | .Duotone => readU32 i
    | _ => (readU32 i).bind fun li => if li.1 = 0 then some li else none).bind
  fun li =>
  (readTake li.1 li.2).bind fun ri =>
  some (ri.1, ⟨.borrowed ri.2⟩)

/-! ### `image_resource.rs` -/

structure ImageResourceBlock where
  resource_id : Nat
  name : Cow
  resource_data : Cow
  deriving DecidableEq, Repr

def ImageResourceBlock.into_static (b : ImageResourceBlock) : ImageResourceBlock :=
  ⟨b.resource_id, b.name.into_static, b.resource_data.into_static⟩

structure ImageResources where
  data : List ImageResourceBlock
  deriving DecidableEq, Repr

def ImageResources.into_static (r : ImageResources) : ImageResources :=
  ⟨r.data.map ImageResourceBlock.into_static⟩

def parse_image_resource_block (i : List Nat) :
    Option (List Nat × ImageResourceBlock) :=
  (readTag [0x38, 0x42, 0x49, 0x4D] i).bind fun i =>
  (readU16 i).bind fun ri =>
  (readU8 ri.2).bind fun ni =>
  -- `&input[..name_len]` then `&input[name_len | 1 ..]`; an out-of-range
  -- slice start panics, and `name_len | 1 ≥ name_len` covers both bounds.
  if (ni.1 ||| 1) ≤ ni.2.length then
    (readU32 (ni.2.drop (ni.1 ||| 1))).bind fun di =>
    -- `(data_len + 1) & !1` in u32 arithmetic: wrap-add, then clear bit 0.
    if di.1 ≤ di.2.length ∧ 2 * ((di.1 + 1) % 4294967296 / 2) ≤ di.2.length then
      some (di.2.drop (2 * ((di.1 + 1) % 4294967296 / 2)),
            ⟨ri.1, .borrowed (ni.2.take ni.1), .borrowed (di.2.take di.1)⟩)
    else none
  else none

/-- The `while !blocks_input.is_empty()` loop of `parse_image_resources`,
with fuel bounding the iteration count (every block consumes ≥ 12 bytes). -/
def parse_resource_blocks : Nat → List Nat → Option (List ImageResourceBlock)
  | _, [] => some []
  | 0, _ :: _ => none
  | fuel + 1, a :: i =>
    (parse_image_resource_block (a :: i)).bind fun rb =>
    (parse_resource_blocks fuel rb.1).map fun bs => rb.2 :: bs

def parse_image_resources (i : List Nat) : Option (List Nat × ImageResources) :=
  (readU32 i).bind fun li =>
  -- `&input[..len]` panics when the declared length exceeds the rest.
  if li.1 ≤ li.2.length then
    (parse_resource_blocks (li.2.length + 1) (li.2.take li.1)).map fun bs =>
    (li.2.drop li.1, ⟨bs⟩)
  else none

/-! ### `layer_info.rs`: enums and flag bitfields -/

inductive SectionDividerType where
  | BoundingSectionDivider | OpenFolder | ClosedFolder | AnyOtherType
  deriving DecidableEq, Repr

def SectionDividerType.from_u32 : Nat → Option SectionDividerType
  | 0 => some .AnyOtherType
  | 1 => some .OpenFolder
  | 2 => some .ClosedFolder
  | 3 => some .BoundingSectionDivider
  | _ => none

inductive SectionDividerSubType where
  | Normal | SceneGroup
  deriving DecidableEq, Repr

def SectionDividerSubType.from_u32 : Nat → Option SectionDividerSubType
  | 0 => some .Normal
  | 1 => some .SceneGroup
  | _ => none

inductive BlendMode where
  | Passthrough | Normal | Dissolve | Darken | Multiply | Colorburn
  | Linearburn | Darkercolor | Lighten | Screen | Colordodge | Lineardodge
  | Lightercolor | Overlay | Softlight | Hardlight | Vividlight | Linearlight
  | Pinlight | Hardmix | Difference | Exclusion | Subtract | Divide
  | Hue | Saturation | Color | Luminosity
  deriving DecidableEq, Repr

/-- `BlendMode::try_from(&[u8])`: exact match of the 4-byte key. -/
def BlendMode.try_from (i : List Nat) : Option BlendMode :=
  if i = [0x70, 0x61, 0x73, 0x73] then some .Passthrough else
  if i = [0x6E, 0x6F, 0x72, 0x6D] then some .Normal else
  if i = [0x64, 0x69, 0x73, 0x73] then some .Dissolve else
  if i = [0x64, 0x61, 0x72, 0x6B] then some .Darken else
  if i = [0x6D, 0x75, 0x6C, 0x20] then some .Multiply else
  if i = [0x69, 0x64, 0x69, 0x76] then some .Colorburn else
  if i = [0x6C, 0x62, 0x72, 0x6E] then some .Linearburn else
  if i = [0x64, 0x6B, 0x43, 0x6C] then some .Darkercolor else
  if i = [0x6C, 0x69, 0x74, 0x65] then some .Lighten else
  if i = [0x73, 0x63, 0x72, 0x6E] then some .Screen else
  if i = [0x64, 0x69, 0x76, 0x20] then some .Colordodge else
  if i = [0x6C, 0x64, 0x64, 0x67] then some .Lineardodge else
  if i = [0x6C, 0x67, 0x43, 0x6C] then some .Lightercolor else
  if i = [0x6F, 0x76, 0x65, 0x72] then some .Overlay else
  if i = [0x73, 0x4C, 0x69, 0x74] then some .Softlight else
  if i = [0x68, 0x4C, 0x69, 0x74] then some .Hardlight else
  if i = [0x76, 0x4C, 0x69, 0x74] then some .Vividlight else
  if i = [0x6C, 0x4C, 0x69, 0x74] then some .Linearlight else
  if i = [0x70, 0x4C, 0x69, 0x74] then some .Pinlight else
  if i = [0x68, 0x4D, 0x69, 0x78] then some .Hardmix else
  if i = [0x64, 0x69, 0x66, 0x66] then some .Difference else
  if i = [0x73, 0x6D, 0x75, 0x64] then some .Exclusion else
  if i = [0x66, 0x73, 0x75, 0x62] then some .Subtract else
  if i = [0x66, 0x64, 0x69, 0x76] then some .Divide else
  if i = [0x68, 0x75, 0x65, 0x20] then some .Hue else
  if i = [0x73, 0x61, 0x74, 0x20] then some .Saturation else
  if i = [0x63, 0x6F, 0x6C, 0x72] then some .Color else
  if i = [0x6C, 0x75, 0x6D, 0x20] then some .Luminosity else
  none

inductive Clipping where
  | Base | NonBase
  deriving DecidableEq, Repr

def Clipping.try_from : Nat → Option Clipping
  | 0 => some .Base
  | 1 => some .NonBase
  | _ => none

inductive ImageCompression where
  | Raw | RLE | ZipWithoutPrediction | ZipWithPrediction
  deriving DecidableEq, Repr

def ImageCompression.from_u16 : Nat → Option ImageCompression
  | 0 => some .Raw
  | 1 => some .RLE
  | 2 => some .ZipWithoutPrediction
  | 3 => some .ZipWithPrediction
  | _ => none

/-- `bitflags` `from_bits` for a bitfield whose defined bits are 0–4:
valid iff no bit above `0b1_1111` is set. Both `LayerMaskFlags` and
`LayerRecordFlags` define exactly bits 0–4. -/
def flagsFromBits (v : Nat) : Option Nat :=
  if v < 32 then some v else none

/-! ### `layer_info.rs`: data model -/

structure ChannelInfo where
  channel_id : Int
  channel_data_length : Nat
  channel_data_width : Nat
  channel_data_height : Nat
  compression : ImageCompression
  data : Cow
  raw_data : Option Cow
  deriving DecidableEq, Repr

/-- Body of the `while !data.is_empty()` PackBits loop in
`ChannelInfo::raw_data`. `fuel` bounds the iteration count; the `-128`
arm does not advance the cursor (the Rust loop then never terminates),
which surfaces here as fuel exhaustion. -/
def rleLoop : Nat → List Nat → List Nat → Option (List Nat)
  | _, acc, [] => some acc
  | 0, _, _ :: _ => none
  | fuel + 1, acc, b :: follow =>
    if b ≤ 127 then
      if b + 1 ≤ follow.length then
        rleLoop fuel (acc ++ follow.take (b + 1)) (follow.drop (b + 1))
      else none
    else if b = 128 then
      rleLoop fuel acc (b :: follow)
    else
      match follow with
      | [] => none
      | c :: rest => rleLoop fuel (acc ++ List.replicate (256 - b + 1) c) rest

/-- PackBits decompression of a whole payload (`ChannelInfo::raw_data`,
`ImageCompression::RLE` arm, after the scanline table has been skipped). -/
def rleDecode (data : List Nat) : Option (List Nat) :=
  rleLoop (data.length + 1) [] data

/-- `OnceCell::get_or_init` of `ChannelInfo::raw_data`: the cached value
if present, otherwise the decompressed plane. -/
def ChannelInfo.rawDataCow (c : ChannelInfo) : Option Cow :=
  match c.raw_data with
  | some v => some v
  | none =>
    match c.compression with
    | .Raw => some c.data
    | .RLE =>
      if c.channel_data_height * 2 ≤ c.data.val.length then
        (rleDecode (c.data.val.drop (c.channel_data_height * 2))).map .owned
      else none
    | _ => none

/-- Byte view of the `ChannelInfo::raw_data` accessor. -/
def ChannelInfo.raw_data_val (c : ChannelInfo) : Option (List Nat) :=
  c.rawDataCow.map Cow.val

def ChannelInfo.into_static (c : ChannelInfo) : Option ChannelInfo :=
  c.rawDataCow.map fun rd =>
    ⟨c.channel_id, c.channel_data_length, c.channel_data_width,
     c.channel_data_height, c.compression, c.data.into_static,
     some (.owned rd.into_owned)⟩

structure LayerMaskOptionalData where
  real_flags : Nat
  real_user_mask_background : Nat
  layer_mask_top : Int
  layer_mask_left : Int
  layer_mask_bottom : Int
  layer_mask_right : Int
  deriving DecidableEq, Repr

structure LayerMaskData where
  layer_mask_top : Int
  layer_mask_left : Int
  layer_mask_bottom : Int
  layer_mask_right : Int
  default_color : Nat
  flags : Nat
  optional : Option LayerMaskOptionalData
  deriving DecidableEq, Repr

inductive AdditionalLayerInformation where
  | SectionDivider (section_divider_type : SectionDividerType)
      (key : Option BlendMode) (sub_type : Option SectionDividerSubType)
  | Unknown (key : Cow) (data : Cow)
  deriving DecidableEq, Repr

def AdditionalLayerInformation.into_static :
    AdditionalLayerInformation → AdditionalLayerInformation
  | .SectionDivider t k s => .SectionDivider t k s
  | .Unknown k d => .Unknown k.into_static d.into_static

structure LayerRecord where
  layer_top : Int
  layer_left : Int
  layer_bottom : Int
  layer_right : Int
  channel_info : List ChannelInfo
  transparency_mask : Option ChannelInfo
  user_supplied_layer_mask : Option ChannelInfo
  real_user_supplied_layer_mask : Option ChannelInfo
  blend_mode : BlendMode
  opacity : Nat
  clipping : Clipping
  flags : Nat
  layer_mask_data : Option LayerMaskData
  layer_blending_ranges_data : Cow
  layer_name : Cow
  additional_layer_info : List AdditionalLayerInformation
  deriving DecidableEq, Repr

/-- `Vec<T> → Option<Vec<U>>` mapping where each element's conversion may
panic (`collect` over `into_static` calls). -/
def listMapM (f : α → Option β) : List α → Option (List β)
  | [] => some []
  | a :: l => (f a).bind fun b => (listMapM f l).map fun bs => b :: bs

def optionMapM (f : α → Option β) : Option α → Option (Option β)
  | none => some none
  | some a => (f a).map some

def LayerRecord.into_static (r : LayerRecord) : Option LayerRecord :=
  (listMapM ChannelInfo.into_static r.channel_info).bind fun ch =>
  (optionMapM ChannelInfo.into_static r.transparency_mask).bind fun tm =>
  (optionMapM ChannelInfo.into_static r.user_supplied_layer_mask).bind fun um =>
  (optionMapM ChannelInfo.into_static r.real_user_supplied_layer_mask).bind fun rm =>
  some ⟨r.layer_top, r.layer_left, r.layer_bottom, r.layer_right, ch, tm, um, rm,
        r.blend_mode, r.opacity, r.clipping, r.flags, r.layer_mask_data,
        r.layer_blending_ranges_data.into_static, r.layer_name.into_static,
        r.additional_layer_info.map AdditionalLayerInformation.into_static⟩

inductive LayerTreeNode where
  | Leaf (record : LayerRecord)
  | Node (folder : LayerRecord) (children : List LayerTreeNode)
  deriving Repr

mutual

def LayerTreeNode.into_static : LayerTreeNode → Option LayerTreeNode
  | .Leaf r => r.into_static.map .Leaf
  | .Node f cs =>
    f.into_static.bind fun f2 =>
    (LayerTreeNode.intoStaticList cs).map fun cs2 => .Node f2 cs2

def LayerTreeNode.intoStaticList : List LayerTreeNode → Option (List LayerTreeNode)
  | [] => some []
  | t :: ts =>
    t.into_static.bind fun t2 =>
    (LayerTreeNode.intoStaticList ts).map fun ts2 => t2 :: ts2

end

structure LayerAndMaskInformation where
  layer_info : List LayerTreeNode
  global_layer_mask_info : Cow
  additional_layer_information : Cow
  deriving Repr

def LayerAndMaskInformation.into_static (l : LayerAndMaskInformation) :
    Option LayerAndMaskInformation :=
  (LayerTreeNode.intoStaticList l.layer_info).map fun li =>
  ⟨li, l.global_layer_mask_info.into_static,
   l.additional_layer_information.into_static⟩

/-! ### `image_data.rs` -/

structure ImageData where
  compression : ImageCompression
  data : Cow
  raw_data : Option (List Cow)
  width : Nat
  height : Nat
  channels : Nat
  deriving DecidableEq, Repr

/-- `ImageData::raw_data`, `Raw` arm: split the payload into
`height × width` chunks until it is exhausted (`split_at` panics when a
chunk would overrun; a zero chunk length loops forever, hence the fuel). -/
def chunksLoop (lenOne : Nat) : Nat → List Nat → Option (List (List Nat))
  | _, [] => some []
  | 0, _ :: _ => none
  | fuel + 1, a :: d =>
    if lenOne ≤ (a :: d).length then
      (chunksLoop lenOne fuel ((a :: d).drop lenOne)).map fun cs =>
        (a :: d).take lenOne :: cs
    else none

/-- `ImageData::raw_data`, `RLE` arm, one channel: decode until
`width × height` bytes are present, then `assert_eq!` the exact length. -/
def imgRleChannelLoop (target : Nat) :
    Nat → List Nat → List Nat → Option (List Nat × List Nat)
  | fuel, acc, data =>
    if target ≤ acc.length then
      if acc.length = target then some (acc, data) else none
    else
      match fuel, data with
      | _, [] => none
      | 0, _ :: _ => none
      | fuel + 1, b :: follow =>
        if b ≤ 127 then
          if b + 1 ≤ follow.length then
            imgRleChannelLoop target fuel (acc ++ follow.take (b + 1))
              (follow.drop (b + 1))
          else none
        else if b = 128 then
          imgRleChannelLoop target fuel acc (b :: follow)
        else
          match follow with
          | [] => none
          | c :: rest =>
            imgRleChannelLoop target fuel (acc ++ List.replicate (256 - b + 1) c)
              rest

/-- `ImageData::raw_data`, `RLE` arm: all `channels` planes in order. -/
def imgRleChannels (target : Nat) : Nat → List Nat → Option (List (List Nat))
  | 0, _ => some []
  | n + 1, data =>
    (imgRleChannelLoop target (data.length + 1) [] data).bind fun rd =>
    (imgRleChannels target n rd.2).map fun rest => rd.1 :: rest

/-- `OnceCell::get_or_init` of `ImageData::raw_data`. -/
def ImageData.rawDataPlanes (d : ImageData) : Option (List Cow) :=
  match d.raw_data with
  | some v => some v
  | none =>
    match d.compression with
    | .Raw =>
      match d.data with
      | .borrowed data =>
        (chunksLoop (d.height * d.width) (data.length + 1) data).map
          (List.map .borrowed)
      | .owned _ => none
    | .RLE =>
      if d.height * d.channels * 2 ≤ d.data.val.length then
        (imgRleChannels (d.width * d.height) d.channels
          (d.data.val.drop (d.height * d.channels * 2))).map (List.map .owned)
      else none
    | _ => none

/-- Byte view of the `ImageData::raw_data` accessor. -/
def ImageData.raw_data_val (d : ImageData) : Option (List (List Nat)) :=
  d.rawDataPlanes.map (List.map Cow.val)

def ImageData.into_static (d : ImageData) : Option ImageData :=
  d.rawDataPlanes.map fun planes =>
  ⟨d.compression, d.data.into_static, some (planes.map Cow.into_static),
   d.width, d.height, d.channels⟩

def parse_image_data (i : List Nat) (header : PsdHeader) :
    Option (List Nat × ImageData) :=
  (readU16 i).bind fun ci =>
  (ImageCompression.from_u16 ci.1).map fun comp =>
  ([], ⟨comp, .borrowed ci.2, none, header.width, header.height, header.channels⟩)

/-! ### `layer_info.rs`: parsers -/

def parse_layer_mask_data (i : List Nat) :
    Option (List Nat × Option LayerMaskData) :=
  if i = [] then some (i, none) else
  match readI32 i with
  | none => none
  | some (t, i) =>
  match readI32 i with
  | none => none
  | some (l, i) =>
  match readI32 i with
  | none => none
  | some (b, i) =>
  match readI32 i with
  | none => none
  | some (r, i) =>
  match readU8 i with
  | none => none
  | some (dc, i) =>
  match readU8 i with
  | none => none
  | some (fb, i) =>
  match flagsFromBits fb with
  | none => none
  | some fl =>
  if i.length = 2 then
    some ([], some ⟨t, l, b, r, dc, fl, none⟩)
  else
  match readU8 i with
  | none => none
  | some (rfb, i) =>
  match flagsFromBits rfb with
  | none => none
  | some rflg =>
  match readU8 i with
  | none => none
  | some (bg, i) =>
  match readI32 i with
  | none => none
  | some (mt, i) =>
  match readI32 i with
  | none => none
  | some (ml, i) =>
  match readI32 i with
  | none => none
  | some (mb, i) =>
  match readI32 i with
  | none => none
  | some (mr, i) =>
  some (i, some ⟨t, l, b, r, dc, fl, some ⟨rflg, bg, mt, ml, mb, mr⟩⟩)

def parse_additional_layer_info (key : List Nat) (data : List Nat) :
    Option (List Nat × AdditionalLayerInformation) :=
  if key = [0x6C, 0x73, 0x63, 0x74] then
    match readU32 data with
    | none => none
    | some (tv, data) =>
    match SectionDividerType.from_u32 tv with
    | none => none
    | some st =>
    if data = [] then some (data, .SectionDivider st none none)
    else
    match readTag [0x38, 0x42, 0x49, 0x4D] data with
    | none => none
    | some data =>
    match readTake 4 data with
    | none => none
    | some (data, kb) =>
    match BlendMode.try_from kb with
    | none => none
    | some bm =>
    if data = [] then some (data, .SectionDivider st (some bm) none)
    else
    match readU32 data with
    | none => none
    | some (sv, data) =>
    match SectionDividerSubType.from_u32 sv with
    | none => none
    | some sub => some (data, .SectionDivider st (some bm) (some sub))
  else some ([], .Unknown (.borrowed key) (.borrowed data))

/-- The additional-information `while !input.is_empty()` loop at the end of
`parse_layer_record`; every iteration consumes at least 12 bytes, so fuel
`input.length + 1` never runs out on inputs the Rust loop finishes. -/
def parse_additional_infos :
    Nat → List Nat → Option (List AdditionalLayerInformation)
  | _, [] => some []
  | 0, _ :: _ => none
  | fuel + 1, a :: i =>
    match (match readTag [0x38, 0x42, 0x49, 0x4D] (a :: i) with
           | some r => some r
           | none => readTag [0x38, 0x42, 0x36, 0x34] (a :: i)) with
    | none => none
    | some i1 =>
    match readTake 4 i1 with
    | none => none
    | some (i2, key) =>
    match readU32 i2 with
    | none => none
    | some (len, i3) =>
    match readTake len i3 with
    | none => none
    | some (i4, data) =>
    match parse_additional_layer_info key data with
    | none => none
    | some (follow, info) =>
    if follow = [] then
      (parse_additional_infos fuel i4).map fun rest => info :: rest
    else none

/-- Channel-table loop of `parse_layer_record`: `channels` entries of
`(i16 id, u32 declared length)`; width/height start as the layer bounds. -/
def parse_channel_entries (top left bottom right : Int) :
    Nat → List Nat → Option (List Nat × List ChannelInfo)
  | 0, i => some (i, [])
  | n + 1, i =>
    (readI16 i).bind fun idi =>
    (readU32 idi.2).bind fun li =>
    (parse_channel_entries top left bottom right n li.2).map fun rest =>
    (rest.1,
     ⟨idi.1, li.1, intAsU32 (right - left), intAsU32 (bottom - top),
      .Raw, .borrowed [], none⟩ :: rest.2)

def parse_layer_record (i : List Nat) : Option (List Nat × LayerRecord) :=
  match readI32 i with
  | none => none
  | some (top, i) =>
  match readI32 i with
  | none => none
  | some (left, i) =>
  match readI32 i with
  | none => none
  | some (bottom, i) =>
  match readI32 i with
  | none => none
  | some (right, i) =>
  match readU16 i with
  | none => none
  | some (channels, i) =>
  match parse_channel_entries top left bottom right channels i with
  | none => none
  | some (i, channel_info) =>
  match readTag [0x38, 0x42, 0x49, 0x4D] i with
  | none => none
  | some i =>
  match readTake 4 i with
  | none => none
  | some (i, bmk) =>
  match BlendMode.try_from bmk with
  | none => none
  | some blend_mode =>
  match readU8 i with
  | none => none
  | some (opacity, i) =>
  match readU8 i with
  | none => none
  | some (clv, i) =>
  match Clipping.try_from clv with
  | none => none
  | some clipping =>
  match readU8 i with
  | none => none
  | some (flv, i) =>
  match flagsFromBits flv with
  | none => none
  | some flags =>
  match readTake 1 i with
  | none => none
  | some (i, _filler) =>
  match readU32 i with
  | none => none
  | some (exlen, i) =>
  match readTake exlen i with
  | none => none
  | some (follow, i) =>
  match readU32 i with
  | none => none
  | some (mlen, i) =>
  match readTake mlen i with
  | none => none
  | some (i, maskBytes) =>
  match parse_layer_mask_data maskBytes with
  | none => none
  | some (_, layer_mask_data) =>
  match readU32 i with
  | none => none
  | some (blen, i) =>
  match readTake blen i with
  | none => none
  | some (i, ranges) =>
  match readU8 i with
  | none => none
  | some (nlen, i) =>
  match readTake nlen i with
  | none => none
  | some (i, name) =>
  if 3 - nlen % 4 ≤ i.length then
    (parse_additional_infos (i.length + 1) (i.drop (3 - nlen % 4))).map
      fun ali =>
        (follow,
         ⟨top, left, bottom, right, channel_info, none, none, none, blend_mode,
          opacity, clipping, flags, layer_mask_data, .borrowed ranges,
          .borrowed name, ali⟩)
  else none

/-- Per-channel blob assignment of `parse_channel_image_data`: read the
declared length, peel the leading compression code, store code + payload. -/
def assign_channels : List Nat → List ChannelInfo →
    Option (List Nat × List ChannelInfo)
  | i, [] => some (i, [])
  | i, c :: cs =>
    (readTake c.channel_data_length i).bind fun bi =>
    (readU16 bi.2).bind fun ci =>
    (ImageCompression.from_u16 ci.1).bind fun comp =>
    (assign_channels bi.1 cs).map fun rest =>
    (rest.1, { c with compression := comp, data := .borrowed ci.2 } :: rest.2)

def parse_channel_image_data : List Nat → List LayerRecord →
    Option (List Nat × List LayerRecord)
  | i, [] => some (i, [])
  | i, r :: rs =>
    (assign_channels i r.channel_info).bind fun ai =>
    (parse_channel_image_data ai.1 rs).map fun rest =>
    (rest.1, { r with channel_info := ai.2 } :: rest.2)

/-- Stable insertion step for channels ordered by `channel_id` (matches the
behavior of the stable `sort_by_key`). -/
def insertChannel (c : ChannelInfo) : List ChannelInfo → List ChannelInfo
  | [] => [c]
  | d :: ds =>
    if d.channel_id < c.channel_id then d :: insertChannel c ds else c :: d :: ds

def sortChannels (l : List ChannelInfo) : List ChannelInfo :=
  l.foldr insertChannel []

/-- `Vec::swap_remove(idx)`: replace the element at `idx` with the last
element and shorten by one. -/
def swapRemoveAt (l : List α) (idx : Nat) : List α :=
  match l.getLast? with
  | none => l
  | some last => (l.set idx last).dropLast

/-- `masks.iter().position(|ch| ch.channel_id == p).map(|i| masks.swap_remove(i))`. -/
def detachChannel (p : Int) (l : List ChannelInfo) :
    Option ChannelInfo × List ChannelInfo :=
  match l.findIdx? (fun c => c.channel_id == p) with
  | none => (none, l)
  | some idx => (l.get? idx, swapRemoveAt l idx)

def sort_channel_data_record (r : LayerRecord) : LayerRecord :=
  let parts := r.channel_info.partition fun c => 0 ≤ c.channel_id
  let colors := sortChannels parts.1
  let m1 := detachChannel (-1) parts.2
  let m2 := detachChannel (-2) m1.2
  let m3 := detachChannel (-3) m2.2
  let channels := colors ++ m3.2
  match r.layer_mask_data with
  | some lmd =>
    let um := m2.1.map fun c =>
      { c with
        channel_data_width := intAsU32 (lmd.layer_mask_right - lmd.layer_mask_left),
        channel_data_height := intAsU32 (lmd.layer_mask_bottom - lmd.layer_mask_top) }
    let rm :=
      match lmd.optional with
      | some o => m3.1.map fun c =>
          { c with
            channel_data_width := intAsU32 (o.layer_mask_right - o.layer_mask_left),
            channel_data_height := intAsU32 (o.layer_mask_bottom - o.layer_mask_top) }
      | none => m3.1
    { r with channel_info := channels, transparency_mask := m1.1,
             user_supplied_layer_mask := um, real_user_supplied_layer_mask := rm }
  | none =>
    { r with channel_info := channels, transparency_mask := m1.1,
             user_supplied_layer_mask := m2.1, real_user_supplied_layer_mask := m3.1 }

def sort_channel_data (rs : List LayerRecord) : List LayerRecord :=
  rs.map sort_channel_data_record

/-- What `into_layer_tree`'s `find_map` extracts from a layer: the inner
`SectionDividerTypeInner` (`Start` for a bounding divider, `End` for an
open/closed folder); `AnyOtherType` only warns and the scan continues. -/
inductive DividerClass where
  | start | stop
  deriving DecidableEq, Repr

def findDivider (r : LayerRecord) : Option DividerClass :=
  r.additional_layer_info.findSome? fun info =>
    match info with
    | .SectionDivider t _ _ =>
      match t with
      | .BoundingSectionDivider => some .start
      | .OpenFolder => some .stop
      | .ClosedFolder => some .stop
      | .AnyOtherType => none
    | _ => none

/-- The `for layer in layers` loop of `into_layer_tree`. The Rust stack is
a `Vec<Vec<LayerTreeNode>>` whose top is its last element; here the list
head is the top. Pushing a node onto the top child list appends at that
list's end, exactly as `Vec::push` does. `none` models the
`expect("invalid layer structure")` panics. -/
def layerTreeLoop :
    List LayerRecord → List (List LayerTreeNode) → Option (List LayerTreeNode)
  | [], stack =>
    match stack with
    | [l] => some l.reverse
    | _ => none
  | layer :: rest, stack =>
    match findDivider layer with
    | some .start => layerTreeLoop rest ([] :: stack)
    | some .stop =>
      match stack with
      | top :: next :: others =>
        layerTreeLoop rest ((next ++ [.Node layer top.reverse]) :: others)
      | _ => none
    | none =>
      match stack with
      | top :: others => layerTreeLoop rest ((top ++ [.Leaf layer]) :: others)
      | [] => none

def into_layer_tree (layers : List LayerRecord) : Option (List LayerTreeNode) :=
  layerTreeLoop layers [[]]

def parse_layer_records : Nat → List Nat → Option (List Nat × List LayerRecord)
  | 0, i => some (i, [])
  | n + 1, i =>
    (parse_layer_record i).bind fun ri =>
    (parse_layer_records n ri.1).map fun rest => (rest.1, ri.2 :: rest.2)

def parse_layer_info (i : List Nat) : Option (List Nat × List LayerTreeNode) :=
  match readU32 i with
  | none => none
  | some (len, i) =>
  match readTake len i with
  | none => none
  | some (follow, i) =>
  match readI16 i with
  | none => none
  | some (layer_count, i) =>
  match parse_layer_records layer_count.natAbs i with
  | none => none
  | some (i, records) =>
  match parse_channel_image_data i records with
  | none => none
  -- `let (_input, _) = ...`: bytes left inside the sub-frame are dropped.
  | some (_, records) =>
  (into_layer_tree (sort_channel_data records)).map fun layers =>
  (follow, layers)

def parse_global_layer_mask_info (i : List Nat) :
    Option (List Nat × List Nat) :=
  (readU32 i).bind fun li => readTake li.1 li.2

def parse_layer_and_mask_information (i : List Nat) :
    Option (List Nat × LayerAndMaskInformation) :=
  (readU32 i).bind fun li =>
  (readTake li.1 li.2).bind fun ei =>
  (parse_layer_info ei.2).bind fun lli =>
  (parse_global_layer_mask_info lli.1).map fun gi =>
  (ei.1, ⟨lli.2, .borrowed gi.2, .borrowed gi.1⟩)

/-! ### `lib.rs` -/

structure Psd where
  header : PsdHeader
  color_mode : ColorModeData
  image_resources : ImageResources
  layer_information : LayerAndMaskInformation
  image_data : ImageData
  deriving Repr

def Psd.into_static (p : Psd) : Option Psd :=
  p.layer_information.into_static.bind fun li =>
  p.image_data.into_static.map fun idata =>
  ⟨p.header, p.color_mode.into_static, p.image_resources.into_static, li, idata⟩

def parse_psd (input : List Nat) : Option Psd :=
  (parse_header input).bind fun hi =>
  (parse_color_mode hi.1 hi.2).bind fun cmi =>
  (parse_image_resources cmi.1).bind fun iri =>
  (parse_layer_and_mask_information iri.1).bind fun lmi =>
  (parse_image_data lmi.1 hi.2).map fun idi =>
  ⟨hi.2, cmi.2, iri.2, lmi.2, idi.2⟩

/-- How a call to the Rust `parse_psd` ends. `err` would be a returned
`Err(_)` value; `parse_psd` unwraps every sub-parser result
(`parse_header(input).unwrap()` and so on), so the only failure mode it
exposes is a panic. -/
inductive ParseOutcome where
  | ok (psd : Psd)
  | err
  | panic
  deriving Repr

def parsePsdOutcome (input : List Nat) : ParseOutcome :=
  match parse_psd input with
  | some p => .ok p
  | none => .panic

/-! ### Inversion and length lemmas for the primitive readers -/

theorem readU8_eq_some {i : List Nat} {v : Nat} {r : List Nat} :
    readU8 i = some (v, r) ↔ i = v :: r := by
  cases i <;> simp [readU8, eq_comm]

theorem readU16_eq_some {i : List Nat} {v : Nat} {r : List Nat} :
    readU16 i = some (v, r) ↔ ∃ a b, i = a :: b :: r ∧ v = a * 256 + b := by
  match i with
  | [] => simp [readU16]
  | [a] => simp [readU16]
  | a :: b :: t =>
    simp only [readU16, Option.some.injEq, Prod.mk.injEq, List.cons.injEq]
    constructor
    · rintro ⟨hv, hr⟩
      subst hv; subst hr
      exact ⟨a, b, ⟨rfl, rfl, rfl⟩, rfl⟩
    · rintro ⟨x, y, ⟨hx, hy, hr⟩, hv⟩
      subst hx; subst hy; subst hr; subst hv
      exact ⟨rfl, rfl⟩

theorem readU32_eq_some {i : List Nat} {v : Nat} {r : List Nat} :
    readU32 i = some (v, r) ↔
      ∃ a b c d, i = a :: b :: c :: d :: r ∧
        v = ((a * 256 + b) * 256 + c) * 256 + d := by
  match i with
  | [] => simp [readU32]
  | [a] => simp [readU32]
  | [a, b] => simp [readU32]
  | [a, b, c] => simp [readU32]
  | a :: b :: c :: d :: t =>
    simp only [readU32, Option.some.injEq, Prod.mk.injEq, List.cons.injEq]
    constructor
    · rintro ⟨hv, hr⟩
      subst hv; subst hr
      exact ⟨a, b, c, d, ⟨rfl, rfl, rfl, rfl, rfl⟩, rfl⟩
    · rintro ⟨x, y, z, w, ⟨hx, hy, hz, hw, hr⟩, hv⟩
      subst hx; subst hy; subst hz; subst hw; subst hr; subst hv
      exact ⟨rfl, rfl⟩

theorem readU8_length {i : List Nat} {v : Nat} {r : List Nat}
    (h : readU8 i = some (v, r)) : i.length = r.length + 1 := by
  rw [readU8_eq_some] at h; subst h; simp

theorem readU16_length {i : List Nat} {v : Nat} {r : List Nat}
    (h : readU16 i = some (v, r)) : i.length = r.length + 2 := by
  rw [readU16_eq_some] at h; obtain ⟨a, b, h, -⟩ := h; subst h; simp

theorem readU32_length {i : List Nat} {v : Nat} {r : List Nat}
    (h : readU32 i = some (v, r)) : i.length = r.length + 4 := by
  rw [readU32_eq_some] at h; obtain ⟨a, b, c, d, h, -⟩ := h; subst h; simp

theorem readI16_eq_some {i : List Nat} {v : Int} {r : List Nat} :
    readI16 i = some (v, r) ↔
      ∃ u, readU16 i = some (u, r) ∧ v = toI16 u := by
  simp only [readI16, Option.map_eq_some']
  constructor
  · rintro ⟨⟨u, r'⟩, hu, hv⟩
    simp only [Prod.mk.injEq] at hv
    exact ⟨u, by rw [hu, hv.2], hv.1.symm⟩
  · rintro ⟨u, hu, hv⟩
    exact ⟨(u, r), hu, by simp [hv]⟩

theorem readI32_eq_some {i : List Nat} {v : Int} {r : List Nat} :
    readI32 i = some (v, r) ↔
      ∃ u, readU32 i = some (u, r) ∧ v = toI32 u := by
  simp only [readI32, Option.map_eq_some']
  constructor
  · rintro ⟨⟨u, r'⟩, hu, hv⟩
    simp only [Prod.mk.injEq] at hv
    exact ⟨u, by rw [hu, hv.2], hv.1.symm⟩
  · rintro ⟨u, hu, hv⟩
    exact ⟨(u, r), hu, by simp [hv]⟩

theorem readI32_length {i : List Nat} {v : Int} {r : List Nat}
    (h : readI32 i = some (v, r)) : i.length = r.length + 4 := by
  rw [readI32_eq_some] at h
  obtain ⟨u, hu, -⟩ := h
  exact readU32_length hu

theorem readTag_eq_some {t i r : List Nat} :
    readTag t i = some r ↔ i.take t.length = t ∧ r = i.drop t.length := by
  constructor
  · intro hsome
    unfold readTag at hsome
    split at hsome
    · next h => exact ⟨h, (Option.some.inj hsome).symm⟩
    · exact absurd hsome (by simp)
  · rintro ⟨h1, h2⟩
    unfold readTag
    rw [if_pos h1, h2]

theorem readTake_eq_some {n : Nat} {i r tk : List Nat} :
    readTake n i = some (r, tk) ↔
      n ≤ i.length ∧ r = i.drop n ∧ tk = i.take n := by
  constructor
  · intro hsome
    unfold readTake at hsome
    split at hsome
    · next h =>
      obtain ⟨h1, h2⟩ := Prod.mk.injEq .. ▸ Option.some.inj hsome
      exact ⟨h, h1.symm, h2.symm⟩
    · exact absurd hsome (by simp)
  · rintro ⟨h1, h2, h3⟩
    unfold readTake
    rw [if_pos h1, h2, h3]

/-- Big-endian 16-bit encoding, used to build concrete frames. -/
def enc16 (v : Nat) : List Nat := [v / 256 % 256, v % 256]

/-- Big-endian 32-bit encoding, used to build concrete frames. -/
def enc32 (v : Nat) : List Nat :=
  [v / 16777216 % 256, v / 65536 % 256, v / 256 % 256, v % 256]

theorem readU32_enc32 {v : Nat} (h : v < 4294967296) (r : List Nat) :
    readU32 (enc32 v ++ r) = some (v, r) := by
  simp only [enc32, List.cons_append, List.nil_append, readU32,
    Option.some.injEq, Prod.mk.injEq, and_true]
  omega

/-! ### Concrete inputs from the spec scenarios -/

/-- Scenario S1: minimal 1×1 RGB file with no layers. Header, zero-length
color-mode data, zero-length image resources, zero-length layer-and-mask
envelope, raw composite data `AA BB CC`. -/
def s1Input : List Nat :=
  [0x38, 0x42, 0x50, 0x53, 0, 1, 0, 0, 0, 0, 0, 0, 0, 3,
   0, 0, 0, 1, 0, 0, 0, 1, 0, 8, 0, 3] ++
  [0, 0, 0, 0] ++ [0, 0, 0, 0] ++ [0, 0, 0, 0] ++ [0, 0, 0xAA, 0xBB, 0xCC]

/-- C3: parse_psd on the S1 input. The spec expects success with three
1-byte planes and an empty layer list; the code reads the layer-info
length from the empty zero-length envelope, which fails, and `parse_psd`
unwraps that failure into a panic. The second conjunct pins the failing
sub-parser: `parse_layer_and_mask_information` on the bytes it receives
after header, color-mode and resources returns an error. -/
theorem C3_s1_minimal_file_fails :
    parsePsdOutcome s1Input = .panic ∧
    parse_layer_and_mask_information [0, 0, 0, 0, 0, 0, 0xAA, 0xBB, 0xCC] =
      none :=
  ⟨rfl, rfl⟩

/-- A buffer with a valid header and color-mode section whose
image-resources section declares length 10 with zero bytes available. -/
def c4TruncatedInput : List Nat :=
  [0x38, 0x42, 0x50, 0x53, 0, 1, 0, 0, 0, 0, 0, 0, 0, 3,
   0, 0, 0, 1, 0, 0, 0, 1, 0, 8, 0, 3] ++
  [0, 0, 0, 0] ++ [0, 0, 0, 10]

/-- C4: a length-prefixed sub-frame whose declared length exceeds the
available bytes (image-resources length 10, 0 bytes left) makes the Rust
code panic — `&input[..10]` is out of bounds, and even nom errors are
turned into panics by the `.unwrap()` calls in `parse_psd` — so the public
function never returns an error value (second conjunct: no input produces
a returned `Err`). -/
theorem C4_truncated_subframe_panics :
    parsePsdOutcome c4TruncatedInput = .panic ∧
    ∀ i, parsePsdOutcome i ≠ .err := by
  refine ⟨rfl, fun i => ?_⟩
  unfold parsePsdOutcome
  split <;> simp

/-- C5 counterexample: a layer-info sub-frame of declared length 6 whose
layer count is 0 leaves 4 bytes (`DE AD BE EF`) unconsumed inside the
declared length; the claim says this must be a parse error, but the
parser succeeds, silently dropping them. -/
theorem C5_counterexample_surplus_accepted :
    parse_layer_info [0, 0, 0, 6, 0, 0, 0xDE, 0xAD, 0xBE, 0xEF] =
      some ([], []) :=
  rfl

/-! ### C2: RLE channel planes are not length-checked -/

/-- A 1×1 RLE channel whose payload decodes to 2 bytes. -/
def c2RleChannel : ChannelInfo :=
  ⟨0, 0, 1, 1, .RLE, .borrowed [0, 0, 1, 0x41, 0x42], none⟩

/-- C2 counterexample: the decompressed plane of a 1×1 RLE channel comes
back with 2 bytes — a plane of a different length than width × height = 1
is returned, with no error. -/
theorem C2_counterexample_wrong_length_plane :
    c2RleChannel.raw_data_val = some [0x41, 0x42] ∧
    c2RleChannel.channel_data_width * c2RleChannel.channel_data_height = 1 ∧
    ([0x41, 0x42] : List Nat).length = 2 :=
  ⟨rfl, rfl, rfl⟩

/-- C2 (amended): for an RLE channel, `ChannelInfo::raw_data` decodes the
entire payload that follows the `2 × height`-byte scanline table; the
output is whatever the control bytes produce, with no comparison against
`width × height` and no error on a mismatch. -/
theorem C2_rle_plane_is_whole_payload_decode (id : Int) (ln w h : Nat)
    (table payload out : List Nat) (htable : table.length = h * 2)
    (hdec : rleDecode payload = some out) :
    (ChannelInfo.mk id ln w h .RLE (.borrowed (table ++ payload))
      none).raw_data_val = some out := by
  unfold ChannelInfo.raw_data_val ChannelInfo.rawDataCow
  have hle : h * 2 ≤ (Cow.borrowed (table ++ payload)).val.length := by
    simp [Cow.val, ← htable]
  rw [if_pos hle]
  have hdrop : (Cow.borrowed (table ++ payload)).val.drop (h * 2) = payload := by
    simp only [Cow.val, ← htable]
    exact List.drop_left table payload
  rw [hdrop, hdec]
  rfl

/-- Witness for C2: a 1×1 channel yields a 2-byte plane with no error. -/
theorem C2_rle_plane_witness :
    (ChannelInfo.mk 0 0 1 1 .RLE (.borrowed ([0, 0] ++ [1, 0x41, 0x42]))
      none).raw_data_val = some [0x41, 0x42] ∧
    ([0x41, 0x42] : List Nat).length ≠ 1 * 1 :=
  ⟨C2_rle_plane_is_whole_payload_decode 0 0 1 1 [0, 0] [1, 0x41, 0x42]
    [0x41, 0x42] (by decide) (by decide), by decide⟩

/-! ### C8: PackBits control-byte semantics, scenario S3 -/

/-- Scenario S3's channel: width 6, height 1, RLE; the payload after the
2-byte scanline table is `FE AA 02 01 02 03 81 42`. -/
def s3Channel : ChannelInfo :=
  ⟨0, 0, 6, 1, .RLE,
   .borrowed ([0, 8] ++ [0xFE, 0xAA, 0x02, 0x01, 0x02, 0x03, 0x81, 0x42]),
   none⟩

/-- C8 counterexample: the S3 payload does not decode to
`AA AA AA 01 02 03 42 42`; control byte `0x81` is −127 and emits 128
copies of `0x42`, not 2. -/
theorem C8_counterexample_s3_output :
    s3Channel.raw_data_val ≠
      some [0xAA, 0xAA, 0xAA, 0x01, 0x02, 0x03, 0x42, 0x42] := by
  decide

/-- C8 (amended): the PackBits body decoder maps `L ∈ [0,127]` to copying
the next `L+1` literal bytes, `L ∈ [−127,−1]` (bytes 129–255, value
`L − 256`) to emitting the following byte `(−L)+1` times, and `−128`
(byte 128) to a warned no-op that does not advance the cursor; the S3
payload therefore decodes to `AA AA AA 01 02 03` followed by 128 copies
of `0x42`. -/
theorem C8_packbits_step_rules :
    (∀ fuel acc L (rest : List Nat), L ≤ 127 → L + 1 ≤ rest.length →
        rleLoop (fuel + 1) acc (L :: rest) =
          rleLoop fuel (acc ++ rest.take (L + 1)) (rest.drop (L + 1))) ∧
    (∀ fuel acc L c (rest : List Nat), 129 ≤ L → L ≤ 255 →
        rleLoop (fuel + 1) acc (L :: c :: rest) =
          rleLoop fuel (acc ++ List.replicate (256 - L + 1) c) rest) ∧
    (∀ fuel acc (rest : List Nat),
        rleLoop (fuel + 1) acc (128 :: rest) = rleLoop fuel acc (128 :: rest)) ∧
    s3Channel.raw_data_val =
      some ([0xAA, 0xAA, 0xAA, 0x01, 0x02, 0x03] ++ List.replicate 128 0x42) := by
  refine ⟨?_, ?_, ?_, by decide⟩
  · intro fuel acc L rest h1 h2
    simp [rleLoop, h1, h2]
  · intro fuel acc L c rest h1 h2
    have hn : ¬ L ≤ 127 := by omega
    have hn2 : ¬ L = 128 := by omega
    simp [rleLoop, hn, hn2]
  · intro fuel acc rest
    simp [rleLoop]

/-- Witness for C8: each step rule applied at a concrete state. -/
theorem C8_packbits_step_rules_witness :
    rleLoop 1 [] [2, 7, 8, 9] =
      rleLoop 0 ([] ++ [7, 8, 9].take 3) ([7, 8, 9].drop 3) ∧
    rleLoop 1 [] [254, 5] = rleLoop 0 ([] ++ List.replicate 3 5) [] ∧
    rleLoop 1 [] [128, 1] = rleLoop 0 [] [128, 1] :=
  ⟨C8_packbits_step_rules.1 0 [] 2 [7, 8, 9] (by decide) (by decide),
   C8_packbits_step_rules.2.1 0 [] 254 5 [] (by decide) (by decide),
   C8_packbits_step_rules.2.2.1 0 [] [1]⟩

/-! ### C10: layer-mask-data remainder discipline -/

/-- C10: for a nonzero mask-data region, the sub-parser succeeds only when
its length is 20 (the 18 required bytes plus exactly 2 padding bytes,
optional block absent) or at least 36 (18 required plus at least 18 for
the optional block, which is then present); any other nonzero length — in
particular exactly 18 — fails even though all required fields are
present. -/
theorem C10_mask_data_remainder :
    ∀ (i rest : List Nat) (md : Option LayerMaskData), 0 < i.length →
      parse_layer_mask_data i = some (rest, md) →
      (i.length = 20 ∨ 36 ≤ i.length) ∧
      (i.length = 20 → ∃ d, md = some d ∧ d.optional = none) ∧
      (36 ≤ i.length → ∃ d, md = some d ∧ d.optional.isSome) := by
  intro i rest md h0 h
  unfold parse_layer_mask_data at h
  rw [if_neg (List.length_pos.mp h0)] at h
  split at h
  · simp at h
  rename_i t i1 heq1
  have len1 := readI32_length heq1
  split at h
  · simp at h
  rename_i l i2 heq2
  have len2 := readI32_length heq2
  split at h
  · simp at h
  rename_i b i3 heq3
  have len3 := readI32_length heq3
  split at h
  · simp at h
  rename_i r i4 heq4
  have len4 := readI32_length heq4
  split at h
  · simp at h
  rename_i dc i5 heq5
  have len5 := readU8_length heq5
  split at h
  · simp at h
  rename_i fb i6 heq6
  have len6 := readU8_length heq6
  split at h
  · simp at h
  rename_i fl heqfl
  split at h
  · -- exactly 2 bytes of padding remain: optional block absent
    rename_i hpad
    obtain ⟨hrest, hmd⟩ := Prod.mk.injEq .. ▸ Option.some.inj h
    refine ⟨Or.inl (by omega), fun _ => ⟨_, hmd.symm, rfl⟩, fun h36 => ?_⟩
    omega
  -- otherwise the optional block is parsed: 18 more required bytes
  rename_i hpad
  split at h
  · simp at h
  rename_i rfb i7 heq7
  have len7 := readU8_length heq7
  split at h
  · simp at h
  rename_i rflg heqrfl
  split at h
  · simp at h
  rename_i bg i8 heq8
  have len8 := readU8_length heq8
  split at h
  · simp at h
  rename_i mt i9 heq9
  have len9 := readI32_length heq9
  split at h
  · simp at h
  rename_i ml i10 heq10
  have len10 := readI32_length heq10
  split at h
  · simp at h
  rename_i mb i11 heq11
  have len11 := readI32_length heq11
  split at h
  · simp at h
  rename_i mr i12 heq12
  have len12 := readI32_length heq12
  obtain ⟨hrest, hmd⟩ := Prod.mk.injEq .. ▸ Option.some.inj h
  refine ⟨Or.inr (by omega), fun h20 => by omega, fun _ => ⟨_, hmd.symm, rfl⟩⟩

/-- Witness for C10: a concrete 20-byte mask region (all zeros) parses,
its length is in the allowed set, and the optional block is absent. -/
theorem C10_mask_data_remainder_witness :
    ((List.replicate 20 0).length = 20 ∨ 36 ≤ (List.replicate 20 0).length) ∧
    ((List.replicate 20 0).length = 20 →
      ∃ d, (some ⟨0, 0, 0, 0, 0, 0, none⟩ : Option LayerMaskData) = some d ∧
        d.optional = none) ∧
    (36 ≤ (List.replicate 20 0).length →
      ∃ d, (some ⟨0, 0, 0, 0, 0, 0, none⟩ : Option LayerMaskData) = some d ∧
        d.optional.isSome) :=
  C10_mask_data_remainder (List.replicate 20 0) [] (some ⟨0, 0, 0, 0, 0, 0, none⟩)
    (by decide) (by decide)

/-! ### C6: image-resource block cursor advance -/

theorem or_one_def (n : Nat) : n ||| 1 = 2 * (n / 2) + 1 := by
  have hd : (n ||| 1) / 2 = n / 2 := by
    rw [Nat.or_div_two]; simp
  have hm : (n ||| 1) % 2 = 1 := Nat.or_mod_two_eq_one.mpr (Or.inr rfl)
  omega

/-- The number of input bytes one resource block occupies: signature (4),
id (2), name-length byte (1), name plus its odd-padding (`name_len | 1`),
data-length field (4), and data padded to even (`(data_len + 1) & !1`). -/
def blockAdvance (b : ImageResourceBlock) : Nat :=
  11 + (b.name.val.length ||| 1) +
    2 * ((b.resource_data.val.length + 1) % 4294967296 / 2)

theorem parse_image_resource_block_advance (i r : List Nat)
    (b : ImageResourceBlock) (h : parse_image_resource_block i = some (r, b)) :
    i.length = r.length + blockAdvance b := by
  simp only [parse_image_resource_block, Option.bind_eq_some] at h
  obtain ⟨i1, htag, h⟩ := h
  obtain ⟨⟨rid, i2⟩, hrid, h⟩ := h
  obtain ⟨⟨nl, i3⟩, hnl, h⟩ := h
  rw [readTag_eq_some] at htag
  dsimp only at hrid hnl h
  split at h
  case isFalse => simp at h
  rename_i hname
  simp only [Option.bind_eq_some] at h
  obtain ⟨⟨dl, i4⟩, hdl, h⟩ := h
  dsimp only at h
  split at h
  case isFalse => simp at h
  rename_i hdata
  obtain ⟨hdlen, hadv⟩ := hdata
  obtain ⟨hr, hb⟩ := Prod.mk.injEq .. ▸ Option.some.inj h
  have hlen1 : i1.length + 4 = i.length := by
    have h2 := congrArg List.length htag.2
    have h1 := congrArg List.length htag.1
    simp at h1 h2
    omega
  have hlen2 := readU16_length hrid
  have hlen3 := readU8_length hnl
  have hlen4 := readU32_length hdl
  have hdroplen : (i3.drop (nl ||| 1)).length = i3.length - (nl ||| 1) := by simp
  have hnl' : nl ≤ i3.length := by
    rw [or_one_def] at hname; omega
  subst hb
  subst hr
  rw [hdroplen] at hlen4
  have hname_len : (i3.take nl).length = nl := by
    simp only [List.length_take]
    omega
  have hdata_len : (i4.take dl).length = dl := by
    simp only [List.length_take]
    omega
  simp only [blockAdvance]
  dsimp only [Cow.val]
  rw [hname_len, hdata_len, List.length_drop]
  rw [or_one_def] at hname hlen4 ⊢
  omega

theorem parse_resource_blocks_sum :
    ∀ (fuel : Nat) (l : List Nat) (bs : List ImageResourceBlock),
      parse_resource_blocks fuel l = some bs →
      (bs.map blockAdvance).sum = l.length := by
  intro fuel
  induction fuel with
  | zero =>
    intro l bs h
    cases l with
    | nil =>
      simp only [parse_resource_blocks, Option.some.injEq] at h
      subst h; simp
    | cons a t => simp [parse_resource_blocks] at h
  | succ fuel ih =>
    intro l bs h
    cases l with
    | nil =>
      simp only [parse_resource_blocks, Option.some.injEq] at h
      subst h; simp
    | cons a t =>
      simp only [parse_resource_blocks, Option.bind_eq_some,
        Option.map_eq_some'] at h
      obtain ⟨⟨r1, blk⟩, hblk, bs', hrec, hbs⟩ := h
      subst hbs
      dsimp only at hblk hrec
      have hadv := parse_image_resource_block_advance _ _ _ hblk
      have hsum := ih _ _ hrec
      simp only [List.map_cons, List.sum_cons]
      omega

/-- C6: every successfully parsed resource block advances the cursor by
exactly `4 + 2 + 1 + (name_len | 1) + 4 + ((data_len + 1) & !1)` bytes,
and the blocks of a successfully parsed image-resources section together
occupy exactly the declared section length. -/
theorem C6_resource_block_advance :
    (∀ (i r : List Nat) (b : ImageResourceBlock),
        parse_image_resource_block i = some (r, b) →
        i.length = r.length + blockAdvance b) ∧
    (∀ (i r : List Nat) (res : ImageResources),
        parse_image_resources i = some (r, res) →
        ∃ len, readU32 i = some (len, i.drop 4) ∧
          (res.data.map blockAdvance).sum = len ∧
          i.length = r.length + 4 + len) := by
  refine ⟨parse_image_resource_block_advance, ?_⟩
  intro i r res h
  simp only [parse_image_resources, Option.bind_eq_some] at h
  obtain ⟨⟨len, i2⟩, hlen, h⟩ := h
  dsimp only at h
  split at h
  case isFalse => simp at h
  rename_i hle
  simp only [Option.map_eq_some'] at h
  obtain ⟨bs, hbs, heq⟩ := h
  obtain ⟨hr, hres⟩ := Prod.mk.injEq .. ▸ heq
  have hsum := parse_resource_blocks_sum _ _ _ hbs
  have hlen4 := readU32_length hlen
  have htk : (i2.take len).length = len := by
    simp only [List.length_take]
    exact min_eq_left hle
  rw [htk] at hsum
  have hi2 : i2 = i.drop 4 := by
    rw [readU32_eq_some] at hlen
    obtain ⟨a, b, c, d, hdec, -⟩ := hlen
    rw [hdec]
    rfl
  refine ⟨len, by rw [← hi2]; exact hlen, ?_, ?_⟩
  · rw [← hres]
    exact hsum
  · have hrl : r.length = i2.length - len := by rw [← hr]; simp
    omega

/-- Scenario S5's block: name length 3, data length 5 — exactly 20 bytes. -/
def rbInput : List Nat :=
  [0x38, 0x42, 0x49, 0x4D, 0, 7, 3, 0x61, 0x62, 0x63, 0, 0, 0, 5,
   9, 9, 9, 9, 9, 0]

def rbBlock : ImageResourceBlock :=
  ⟨7, .borrowed [0x61, 0x62, 0x63], .borrowed [9, 9, 9, 9, 9]⟩

/-- Witness for C6: the S5 block advances the cursor exactly 20 bytes, and
a one-block section of declared length 20 is consumed exactly. -/
theorem C6_resource_block_advance_witness :
    (rbInput.length = ([] : List Nat).length + blockAdvance rbBlock ∧
      blockAdvance rbBlock = 20) ∧
    (∃ len, readU32 ([0, 0, 0, 20] ++ rbInput) =
        some (len, ([0, 0, 0, 20] ++ rbInput).drop 4) ∧
      ((ImageResources.mk [rbBlock]).data.map blockAdvance).sum = len ∧
      ([0, 0, 0, 20] ++ rbInput).length = ([] : List Nat).length + 4 + len) :=
  ⟨⟨C6_resource_block_advance.1 rbInput [] rbBlock (by rfl), by decide⟩,
   C6_resource_block_advance.2 ([0, 0, 0, 20] ++ rbInput) [] ⟨[rbBlock]⟩
     (by rfl)⟩

/-! ### C7: header parser characterization -/

def be16val (a b : Nat) : Nat := a * 256 + b

def be32val (a b c d : Nat) : Nat := ((a * 256 + b) * 256 + c) * 256 + d

/-- C7: the header parser succeeds exactly on inputs of at least 26 bytes
that open with magic `8BPS`, a big-endian version equal to 1, six zero
bytes, and channel/height/width/depth/color-mode fields inside the
documented ranges; on success it consumes exactly the 26 header bytes
(the remainder is returned unchanged) and the returned `PsdHeader` holds
exactly the decoded field values. -/
theorem C7_header_characterization :
    ∀ (i rest : List Nat) (h : PsdHeader),
      parse_header i = some (rest, h) ↔
      ∃ v0 v1 c0 c1 h0 h1 h2 h3 w0 w1 w2 w3 d0 d1 m0 m1 cm,
        i = 0x38 :: 0x42 :: 0x50 :: 0x53 :: v0 :: v1 ::
            0 :: 0 :: 0 :: 0 :: 0 :: 0 ::
            c0 :: c1 :: h0 :: h1 :: h2 :: h3 ::
            w0 :: w1 :: w2 :: w3 :: d0 :: d1 :: m0 :: m1 :: rest ∧
        be16val v0 v1 = 1 ∧
        (1 ≤ be16val c0 c1 ∧ be16val c0 c1 ≤ 56) ∧
        (1 ≤ be32val h0 h1 h2 h3 ∧ be32val h0 h1 h2 h3 ≤ 30000) ∧
        (1 ≤ be32val w0 w1 w2 w3 ∧ be32val w0 w1 w2 w3 ≤ 30000) ∧
        be16val d0 d1 ∈ [1, 8, 16, 32] ∧
        ColorMode.from_u16 (be16val m0 m1) = some cm ∧
        h = ⟨1, be16val c0 c1, be32val h0 h1 h2 h3, be32val w0 w1 w2 w3,
             be16val d0 d1, cm⟩ := by
  intro i rest h
  constructor
  · intro hp
    unfold parse_header at hp
    split at hp
    · simp at hp
    rename_i i1 htag
    rw [readTag_eq_some] at htag
    simp at htag
    have hi : i = 0x38 :: 0x42 :: 0x50 :: 0x53 :: i1 := by
      conv_lhs => rw [← List.take_append_drop 4 i]
      rw [htag.1, ← htag.2]
      rfl
    split at hp
    · simp at hp
    rename_i v i2 hv
    rw [readU16_eq_some] at hv
    obtain ⟨v0, v1, hv12, hvval⟩ := hv
    split at hp
    case isFalse => simp at hp
    rename_i hver
    split at hp
    · simp at hp
    rename_i i3 hzero
    rw [readTag_eq_some] at hzero
    simp at hzero
    have hi2 : i2 = 0 :: 0 :: 0 :: 0 :: 0 :: 0 :: i3 := by
      conv_lhs => rw [← List.take_append_drop 6 i2]
      rw [hzero.1, ← hzero.2]
      rfl
    split at hp
    · simp at hp
    rename_i c i4 hc
    rw [readU16_eq_some] at hc
    obtain ⟨c0, c1, hc12, hcval⟩ := hc
    split at hp
    case isFalse => simp at hp
    rename_i hcrange
    split at hp
    · simp at hp
    rename_i ht i5 hht
    rw [readU32_eq_some] at hht
    obtain ⟨h0, h1, h2, h3, hh12, hhval⟩ := hht
    split at hp
    case isFalse => simp at hp
    rename_i hhrange
    split at hp
    · simp at hp
    rename_i w i6 hw
    rw [readU32_eq_some] at hw
    obtain ⟨w0, w1, w2, w3, hw12, hwval⟩ := hw
    split at hp
    case isFalse => simp at hp
    rename_i hwrange
    split at hp
    · simp at hp
    rename_i d i7 hd
    rw [readU16_eq_some] at hd
    obtain ⟨d0, d1, hd12, hdval⟩ := hd
    split at hp
    case isFalse => simp at hp
    rename_i hdrange
    split at hp
    · simp at hp
    rename_i m i8 hm
    rw [readU16_eq_some] at hm
    obtain ⟨m0, m1, hm12, hmval⟩ := hm
    split at hp
    · simp at hp
    rename_i cm hcm
    obtain ⟨hrest, hhdr⟩ := Prod.mk.injEq .. ▸ Option.some.inj hp
    refine ⟨v0, v1, c0, c1, h0, h1, h2, h3, w0, w1, w2, w3, d0, d1, m0, m1,
      cm, ?_, ?_, ?_, ?_, ?_, ?_, ?_, ?_⟩
    · rw [hi, hv12, hi2, hc12, hh12, hw12, hd12, hm12, hrest]
    · simpa [be16val, ← hvval] using hver
    · simpa [be16val, ← hcval] using hcrange
    · simpa [be32val, ← hhval] using hhrange
    · simpa [be32val, ← hwval] using hwrange
    · simpa [be16val, ← hdval] using hdrange
    · simpa [be16val, ← hmval] using hcm
    · rw [← hhdr]
      simp [be16val, be32val, PsdHeader.mk.injEq, hcval, hhval, hwval, hdval]
  · rintro ⟨v0, v1, c0, c1, h0, h1, h2, h3, w0, w1, w2, w3, d0, d1, m0, m1,
      cm, hi, hver, hcr, hhr, hwr, hdr, hcm, hh⟩
    subst hi
    subst hh
    unfold parse_header
    rw [show readTag [0x38, 0x42, 0x50, 0x53]
        (0x38 :: 0x42 :: 0x50 :: 0x53 :: v0 :: v1 ::
          0 :: 0 :: 0 :: 0 :: 0 :: 0 ::
          c0 :: c1 :: h0 :: h1 :: h2 :: h3 ::
          w0 :: w1 :: w2 :: w3 :: d0 :: d1 :: m0 :: m1 :: rest) =
        some (v0 :: v1 :: 0 :: 0 :: 0 :: 0 :: 0 :: 0 ::
          c0 :: c1 :: h0 :: h1 :: h2 :: h3 ::
          w0 :: w1 :: w2 :: w3 :: d0 :: d1 :: m0 :: m1 :: rest) from
      readTag_eq_some.mpr ⟨rfl, rfl⟩]
    dsimp only
    rw [show readU16 (v0 :: v1 :: 0 :: 0 :: 0 :: 0 :: 0 :: 0 ::
          c0 :: c1 :: h0 :: h1 :: h2 :: h3 ::
          w0 :: w1 :: w2 :: w3 :: d0 :: d1 :: m0 :: m1 :: rest) =
        some (v0 * 256 + v1, 0 :: 0 :: 0 :: 0 :: 0 :: 0 ::
          c0 :: c1 :: h0 :: h1 :: h2 :: h3 ::
          w0 :: w1 :: w2 :: w3 :: d0 :: d1 :: m0 :: m1 :: rest) from rfl]
    dsimp only
    rw [if_pos (show v0 * 256 + v1 = 1 by simpa [be16val] using hver)]
    rw [show readTag [0, 0, 0, 0, 0, 0] (0 :: 0 :: 0 :: 0 :: 0 :: 0 ::
          c0 :: c1 :: h0 :: h1 :: h2 :: h3 ::
          w0 :: w1 :: w2 :: w3 :: d0 :: d1 :: m0 :: m1 :: rest) =
        some (c0 :: c1 :: h0 :: h1 :: h2 :: h3 ::
          w0 :: w1 :: w2 :: w3 :: d0 :: d1 :: m0 :: m1 :: rest) from
      readTag_eq_some.mpr ⟨rfl, rfl⟩]
    dsimp only
    rw [show readU16 (c0 :: c1 :: h0 :: h1 :: h2 :: h3 ::
          w0 :: w1 :: w2 :: w3 :: d0 :: d1 :: m0 :: m1 :: rest) =
        some (c0 * 256 + c1, h0 :: h1 :: h2 :: h3 ::
          w0 :: w1 :: w2 :: w3 :: d0 :: d1 :: m0 :: m1 :: rest) from rfl]
    dsimp only
    rw [if_pos (show 1 ≤ c0 * 256 + c1 ∧ c0 * 256 + c1 ≤ 56 by
      simpa [be16val] using hcr)]
    rw [show readU32 (h0 :: h1 :: h2 :: h3 ::
          w0 :: w1 :: w2 :: w3 :: d0 :: d1 :: m0 :: m1 :: rest) =
        some (((h0 * 256 + h1) * 256 + h2) * 256 + h3,
          w0 :: w1 :: w2 :: w3 :: d0 :: d1 :: m0 :: m1 :: rest) from rfl]
    dsimp only
    rw [if_pos (show 1 ≤ ((h0 * 256 + h1) * 256 + h2) * 256 + h3 ∧
        ((h0 * 256 + h1) * 256 + h2) * 256 + h3 ≤ 30000 by
      simpa [be32val] using hhr)]
    rw [show readU32 (w0 :: w1 :: w2 :: w3 :: d0 :: d1 :: m0 :: m1 :: rest) =
        some (((w0 * 256 + w1) * 256 + w2) * 256 + w3,
          d0 :: d1 :: m0 :: m1 :: rest) from rfl]
    dsimp only
    rw [if_pos (show 1 ≤ ((w0 * 256 + w1) * 256 + w2) * 256 + w3 ∧
        ((w0 * 256 + w1) * 256 + w2) * 256 + w3 ≤ 30000 by
      simpa [be32val] using hwr)]
    rw [show readU16 (d0 :: d1 :: m0 :: m1 :: rest) =
        some (d0 * 256 + d1, m0 :: m1 :: rest) from rfl]
    dsimp only
    rw [if_pos (show d0 * 256 + d1 ∈ [1, 8, 16, 32] by
      simpa [be16val] using hdr)]
    rw [show readU16 (m0 :: m1 :: rest) = some (m0 * 256 + m1, rest) from rfl]
    dsimp only
    rw [show ColorMode.from_u16 (m0 * 256 + m1) = some cm from
      by simpa [be16val] using hcm]
    simp [be16val, be32val]

/-! ### C1: layer-tree reconstruction -/

/-- One step of the stack algorithm as described by the spec (section
4.4.4): a bounding divider pushes a fresh child list, an open/closed
folder pops the top list, reverses it and pushes the resulting group
node, and any other layer is pushed as a leaf; popping an exhausted
stack is a structural failure. -/
def specTreeStep (stack : List (List LayerTreeNode)) (layer : LayerRecord) :
    Option (List (List LayerTreeNode)) :=
  match findDivider layer with
  | some .start => some ([] :: stack)
  | some .stop =>
    match stack with
    | top :: next :: others => some ((next ++ [.Node layer top.reverse]) :: others)
    | _ => none
  | none =>
    match stack with
    | top :: others => some ((top ++ [.Leaf layer]) :: others)
    | [] => none

def specFinalize (stack : List (List LayerTreeNode)) :
    Option (List LayerTreeNode) :=
  match stack with
  | [l] => some l.reverse
  | _ => none

/-- The spec's tree-building algorithm: fold the step over the layers in
file order starting from one empty list, then demand a singleton stack
and reverse it. -/
def specBuildTree (layers : List LayerRecord) : Option (List LayerTreeNode) :=
  (List.foldlM specTreeStep [[]] layers).bind specFinalize

theorem layerTreeLoop_nil (stack : List (List LayerTreeNode)) :
    layerTreeLoop [] stack = specFinalize stack := by
  cases stack with
  | nil => rfl
  | cons top others => cases others <;> rfl

theorem layerTreeLoop_cons (layer : LayerRecord) (rest : List LayerRecord)
    (stack : List (List LayerTreeNode)) :
    layerTreeLoop (layer :: rest) stack =
      (specTreeStep stack layer).bind (layerTreeLoop rest) := by
  unfold specTreeStep
  cases hdiv : findDivider layer with
  | none =>
    cases stack with
    | nil => simp only [layerTreeLoop, hdiv]; rfl
    | cons top others => simp only [layerTreeLoop, hdiv]; rfl
  | some cls =>
    cases cls with
    | start => simp only [layerTreeLoop, hdiv]; rfl
    | stop =>
      cases stack with
      | nil => simp only [layerTreeLoop, hdiv]; rfl
      | cons top others =>
        cases others with
        | nil => simp only [layerTreeLoop, hdiv]; rfl
        | cons next os => simp only [layerTreeLoop, hdiv]; rfl

theorem layerTreeLoop_eq_foldlM :
    ∀ (layers : List LayerRecord) (stack : List (List LayerTreeNode)),
      layerTreeLoop layers stack =
        (List.foldlM specTreeStep stack layers).bind specFinalize := by
  intro layers
  induction layers with
  | nil =>
    intro stack
    simp only [List.foldlM_nil, pure, Option.pure_def, Option.bind_some]
    exact layerTreeLoop_nil stack
  | cons layer rest ih =>
    intro stack
    rw [List.foldlM_cons, layerTreeLoop_cons]
    cases specTreeStep stack layer with
    | none => rfl
    | some stack2 => simpa using ih stack2

/-- A minimal layer record distinguished by name, with the given
additional-information list. -/
def mkLayer (name : List Nat) (infos : List AdditionalLayerInformation) :
    LayerRecord :=
  ⟨0, 0, 0, 0, [], none, none, none, .Normal, 255, .Base, 0, none,
   .borrowed [], .borrowed name, infos⟩

def sdBound : AdditionalLayerInformation :=
  .SectionDivider .BoundingSectionDivider none none

def sdOpen : AdditionalLayerInformation :=
  .SectionDivider .OpenFolder none none

def sdClose : AdditionalLayerInformation :=
  .SectionDivider .ClosedFolder none none

def s4Bound1 : LayerRecord := mkLayer [0x42, 0x31] [sdBound]

def s4L1 : LayerRecord := mkLayer [0x4C, 0x31] []

def s4L2 : LayerRecord := mkLayer [0x4C, 0x32] []

def s4G1 : LayerRecord := mkLayer [0x47, 0x31] [sdOpen]

def s4Bound2 : LayerRecord := mkLayer [0x42, 0x32] [sdBound]

def s4L3 : LayerRecord := mkLayer [0x4C, 0x33] []

def s4G2 : LayerRecord := mkLayer [0x47, 0x32] [sdClose]

/-- Scenario S4's seven layers in file (bottom-up) order. -/
def s4Layers : List LayerRecord :=
  [s4Bound1, s4L1, s4L2, s4G1, s4Bound2, s4L3, s4G2]

/-- Shallow name view of a tree node: the folder or leaf names of its
immediate content, used to tell concrete trees apart. -/
def childNames : LayerTreeNode → List (List Nat)
  | .Leaf r => [r.layer_name.val]
  | .Node _ cs =>
    cs.map fun c =>
      match c with
      | .Leaf r => r.layer_name.val
      | .Node f _ => f.layer_name.val

/-- C1 counterexample: on S4 the claimed result
`[G2{children:[L3]}, G1{children:[L1, L2]}]` is not what
`into_layer_tree` produces — the reverse puts G1's children in top-down
order `[L2, L1]`. -/
theorem C1_counterexample_s4_children_order :
    into_layer_tree s4Layers ≠
      some [.Node s4G2 [.Leaf s4L3], .Node s4G1 [.Leaf s4L1, .Leaf s4L2]] := by
  intro hcl
  exact absurd (congrArg (Option.map (List.map childNames)) hcl) (by decide)

/-- C1 (amended): layer-tree reconstruction follows the stack algorithm of
spec 4.4.4 (push a child list on a bounding divider, pop-reverse-wrap on
an open/closed folder, leaf otherwise, final singleton-stack check and
reverse); on S4 the result is `[G2{children:[L3]}, G1{children:[L2, L1]}]`
— children, like the top-level list, come out in top-down order — and a
lone bounding divider leaves a two-list stack, which is a failure. -/
theorem C1_layer_tree_algorithm :
    (∀ layers : List LayerRecord,
        into_layer_tree layers = specBuildTree layers) ∧
    into_layer_tree s4Layers =
      some [.Node s4G2 [.Leaf s4L3], .Node s4G1 [.Leaf s4L2, .Leaf s4L1]] ∧
    into_layer_tree [s4Bound1] = none := by
  refine ⟨fun layers => layerTreeLoop_eq_foldlM layers [[]], rfl, rfl⟩

/-! ### C5: surplus bytes inside declared lengths -/

/-- C5 (amended): bytes left unconsumed inside the layer-info sub-frame's
declared length are silently ignored — a zero-layer sub-frame of length
`2 + |g|` parses successfully for any surplus `g` and hands back exactly
the bytes after the sub-frame; likewise the mask-data sub-parser returns
(rather than rejects) surplus bytes after the optional block, and its
caller drops them. -/
theorem C5_declared_lengths_not_exact (g rest : List Nat)
    (hlt : g.length + 2 < 4294967296) :
    parse_layer_info (enc32 (g.length + 2) ++ (([0, 0] ++ g) ++ rest)) =
      some (rest, []) ∧
    ∀ extra : List Nat,
      parse_layer_mask_data (List.replicate 36 0 ++ extra) =
        some (extra, some ⟨0, 0, 0, 0, 0, 0, some ⟨0, 0, 0, 0, 0, 0⟩⟩) := by
  constructor
  · unfold parse_layer_info
    rw [readU32_enc32 hlt]
    dsimp only
    rw [show readTake (g.length + 2) (([0, 0] ++ g) ++ rest) =
        some (rest, [0, 0] ++ g) from
      readTake_eq_some.mpr ⟨by simp, by
        rw [show g.length + 2 = ([0, 0] ++ g).length by simp]
        rw [List.drop_left], by
        rw [show g.length + 2 = ([0, 0] ++ g).length by simp]
        rw [List.take_left]⟩]
    rfl
  · intro extra
    show parse_layer_mask_data
        (0 :: 0 :: 0 :: 0 :: 0 :: 0 :: 0 :: 0 :: 0 :: 0 :: 0 :: 0 ::
         0 :: 0 :: 0 :: 0 :: 0 :: 0 :: 0 :: 0 :: 0 :: 0 :: 0 :: 0 ::
         0 :: 0 :: 0 :: 0 :: 0 :: 0 :: 0 :: 0 :: 0 :: 0 :: 0 :: 0 ::
         extra) = _
    unfold parse_layer_mask_data
    rw [if_neg (by simp)]
    dsimp only [readI32, readU32, readU8, Option.map]
    rw [show flagsFromBits 0 = some 0 from rfl]
    dsimp only
    rw [if_neg (show ¬((0 :: 0 :: 0 :: 0 :: 0 :: 0 :: 0 :: 0 :: 0 :: 0 ::
        0 :: 0 :: 0 :: 0 :: 0 :: 0 :: 0 :: 0 :: extra).length = 2) by
      simp)]
    rfl

/-- Witness for C5: surplus `DE AD BE EF` inside a declared length of 6,
and two surplus bytes after a 36-byte mask region, both accepted. -/
theorem C5_declared_lengths_not_exact_witness :
    (parse_layer_info (enc32 ([0xDE, 0xAD, 0xBE, 0xEF].length + 2) ++
        ([0, 0] ++ [0xDE, 0xAD, 0xBE, 0xEF]) ++ [9]) = some ([9], []) ∧
      ∀ extra : List Nat,
        parse_layer_mask_data (List.replicate 36 0 ++ extra) =
          some (extra, some ⟨0, 0, 0, 0, 0, 0, some ⟨0, 0, 0, 0, 0, 0⟩⟩)) :=
  C5_declared_lengths_not_exact [0xDE, 0xAD, 0xBE, 0xEF] [9] (by decide)

/-! ### C9: detach (`into_static`) idempotence and accessor preservation

The views below collect, for each node of the document tree, exactly what
its public accessors return (byte slices as their values, lazy planes as
the accessor would compute them), so "every accessor agrees" becomes an
equality of views. -/

theorem cow_into_static_idem (c : Cow) : c.into_static.into_static = c.into_static := rfl

theorem cow_into_static_val (c : Cow) : c.into_static.val = c.val := rfl

structure ChannelView where
  id : Int
  declaredLen : Nat
  w : Nat
  h : Nat
  comp : ImageCompression
  dataBytes : List Nat
  plane : Option (List Nat)
  deriving DecidableEq, Repr

def ChannelInfo.view (c : ChannelInfo) : ChannelView :=
  ⟨c.channel_id, c.channel_data_length, c.channel_data_width,
   c.channel_data_height, c.compression, c.data.val, c.raw_data_val⟩

inductive AddlView where
  | divider (t : SectionDividerType) (k : Option BlendMode)
      (s : Option SectionDividerSubType)
  | unknown (key : List Nat) (data : List Nat)
  deriving DecidableEq, Repr

def AdditionalLayerInformation.view : AdditionalLayerInformation → AddlView
  | .SectionDivider t k s => .divider t k s
  | .Unknown k d => .unknown k.val d.val

structure RecordView where
  top : Int
  left : Int
  bottom : Int
  right : Int
  channels : List ChannelView
  tmask : Option ChannelView
  umask : Option ChannelView
  rmask : Option ChannelView
  blend : BlendMode
  opacity : Nat
  clip : Clipping
  recFlags : Nat
  mask : Option LayerMaskData
  ranges : List Nat
  name : List Nat
  addl : List AddlView
  deriving DecidableEq, Repr

def LayerRecord.view (r : LayerRecord) : RecordView :=
  ⟨r.layer_top, r.layer_left, r.layer_bottom, r.layer_right,
   r.channel_info.map ChannelInfo.view,
   r.transparency_mask.map ChannelInfo.view,
   r.user_supplied_layer_mask.map ChannelInfo.view,
   r.real_user_supplied_layer_mask.map ChannelInfo.view,
   r.blend_mode, r.opacity, r.clipping, r.flags, r.layer_mask_data,
   r.layer_blending_ranges_data.val, r.layer_name.val,
   r.additional_layer_info.map AdditionalLayerInformation.view⟩

inductive TreeView where
  | leaf (r : RecordView)
  | node (f : RecordView) (cs : List TreeView)
  deriving Repr

mutual

def LayerTreeNode.view : LayerTreeNode → TreeView
  | .Leaf r => .leaf r.view
  | .Node f cs => .node f.view (LayerTreeNode.viewList cs)

def LayerTreeNode.viewList : List LayerTreeNode → List TreeView
  | [] => []
  | t :: ts => t.view :: LayerTreeNode.viewList ts

end

/-! Generic lifting of per-element facts through `listMapM`/`optionMapM`. -/

theorem listMapM_idem {α : Type} (f : α → Option α)
    (hf : ∀ a b, f a = some b → f b = some b) :
    ∀ l l', listMapM f l = some l' → listMapM f l' = some l' := by
  intro l
  induction l with
  | nil =>
    intro l' h
    simp only [listMapM, Option.some.injEq] at h
    subst h
    rfl
  | cons a t ih =>
    intro l' h
    simp only [listMapM, Option.bind_eq_some, Option.map_eq_some'] at h
    obtain ⟨b, hb, bs, hbs, hl'⟩ := h
    subst hl'
    simp only [listMapM, Option.bind_eq_some, Option.map_eq_some']
    exact ⟨b, hf a b hb, bs, ih bs hbs, rfl⟩

theorem listMapM_map {α β : Type} (f : α → Option α) (g : α → β)
    (hf : ∀ a b, f a = some b → g b = g a) :
    ∀ l l', listMapM f l = some l' → l'.map g = l.map g := by
  intro l
  induction l with
  | nil =>
    intro l' h
    simp only [listMapM, Option.some.injEq] at h
    subst h
    rfl
  | cons a t ih =>
    intro l' h
    simp only [listMapM, Option.bind_eq_some, Option.map_eq_some'] at h
    obtain ⟨b, hb, bs, hbs, hl'⟩ := h
    subst hl'
    simp only [List.map_cons, ih bs hbs, hf a b hb]

theorem optionMapM_idem {α : Type} (f : α → Option α)
    (hf : ∀ a b, f a = some b → f b = some b) :
    ∀ o o', optionMapM f o = some o' → optionMapM f o' = some o' := by
  intro o o' h
  cases o with
  | none =>
    simp only [optionMapM, Option.some.injEq] at h
    subst h
    rfl
  | some a =>
    simp only [optionMapM, Option.map_eq_some'] at h
    obtain ⟨b, hb, ho'⟩ := h
    subst ho'
    simp only [optionMapM, Option.map_eq_some']
    exact ⟨b, hf a b hb, rfl⟩

theorem optionMapM_map {α β : Type} (f : α → Option α) (g : α → β)
    (hf : ∀ a b, f a = some b → g b = g a) :
    ∀ o o', optionMapM f o = some o' → o'.map g = o.map g := by
  intro o o' h
  cases o with
  | none =>
    simp only [optionMapM, Option.some.injEq] at h
    subst h
    rfl
  | some a =>
    simp only [optionMapM, Option.map_eq_some'] at h
    obtain ⟨b, hb, ho'⟩ := h
    subst ho'
    simp only [Option.map_some', hf a b hb]

/-! Channel level. -/

theorem chan_into_static_inv (c c' : ChannelInfo)
    (h : ChannelInfo.into_static c = some c') :
    ∃ rd, c.rawDataCow = some rd ∧
      c' = ⟨c.channel_id, c.channel_data_length, c.channel_data_width,
            c.channel_data_height, c.compression, .owned c.data.val,
            some (.owned rd.val)⟩ := by
  simp only [ChannelInfo.into_static, Option.map_eq_some'] at h
  obtain ⟨rd, hrd, hc⟩ := h
  exact ⟨rd, hrd, hc.symm⟩

theorem chan_into_static_idem (c c' : ChannelInfo)
    (h : ChannelInfo.into_static c = some c') :
    ChannelInfo.into_static c' = some c' := by
  obtain ⟨rd, hrd, hc⟩ := chan_into_static_inv c c' h
  subst hc
  rfl

theorem chan_into_static_view (c c' : ChannelInfo)
    (h : ChannelInfo.into_static c = some c') : c'.view = c.view := by
  obtain ⟨rd, hrd, hc⟩ := chan_into_static_inv c c' h
  subst hc
  have h2 : c.raw_data_val = some rd.val := by
    unfold ChannelInfo.raw_data_val
    rw [hrd]
    rfl
  simp only [ChannelInfo.view, h2]
  rfl

/-! Additional-information and record level. -/

theorem addl_into_static_idem (a : AdditionalLayerInformation) :
    a.into_static.into_static = a.into_static := by
  cases a <;> rfl

theorem addl_into_static_view (a : AdditionalLayerInformation) :
    a.into_static.view = a.view := by
  cases a <;> rfl

theorem record_into_static_inv (r r' : LayerRecord)
    (h : LayerRecord.into_static r = some r') :
    ∃ ch tm um rm,
      listMapM ChannelInfo.into_static r.channel_info = some ch ∧
      optionMapM ChannelInfo.into_static r.transparency_mask = some tm ∧
      optionMapM ChannelInfo.into_static r.user_supplied_layer_mask = some um ∧
      optionMapM ChannelInfo.into_static r.real_user_supplied_layer_mask =
        some rm ∧
      r' = ⟨r.layer_top, r.layer_left, r.layer_bottom, r.layer_right, ch, tm,
            um, rm, r.blend_mode, r.opacity, r.clipping, r.flags,
            r.layer_mask_data, .owned r.layer_blending_ranges_data.val,
            .owned r.layer_name.val,
            r.additional_layer_info.map AdditionalLayerInformation.into_static⟩ := by
  simp only [LayerRecord.into_static, Option.bind_eq_some,
    Option.some.injEq] at h
  obtain ⟨ch, hch, tm, htm, um, hum, rm, hrm, hr⟩ := h
  exact ⟨ch, tm, um, rm, hch, htm, hum, hrm, hr.symm⟩

theorem record_into_static_idem (r r' : LayerRecord)
    (h : LayerRecord.into_static r = some r') :
    LayerRecord.into_static r' = some r' := by
  obtain ⟨ch, tm, um, rm, hch, htm, hum, hrm, hr⟩ := record_into_static_inv r r' h
  subst hr
  simp only [LayerRecord.into_static, Option.bind_eq_some, Option.some.injEq]
  refine ⟨ch, listMapM_idem _ chan_into_static_idem _ _ hch,
    tm, optionMapM_idem _ chan_into_static_idem _ _ htm,
    um, optionMapM_idem _ chan_into_static_idem _ _ hum,
    rm, optionMapM_idem _ chan_into_static_idem _ _ hrm, ?_⟩
  have haddl : (r.additional_layer_info.map
      AdditionalLayerInformation.into_static).map
      AdditionalLayerInformation.into_static =
      r.additional_layer_info.map AdditionalLayerInformation.into_static := by
    rw [List.map_map]
    exact List.map_congr_left fun a _ => addl_into_static_idem a
  rw [haddl]
  rfl

theorem record_into_static_view (r r' : LayerRecord)
    (h : LayerRecord.into_static r = some r') : r'.view = r.view := by
  obtain ⟨ch, tm, um, rm, hch, htm, hum, hrm, hr⟩ := record_into_static_inv r r' h
  subst hr
  have hch' := listMapM_map _ _ chan_into_static_view _ _ hch
  have htm' := optionMapM_map _ _ chan_into_static_view _ _ htm
  have hum' := optionMapM_map _ _ chan_into_static_view _ _ hum
  have hrm' := optionMapM_map _ _ chan_into_static_view _ _ hrm
  have haddl : (r.additional_layer_info.map
      AdditionalLayerInformation.into_static).map
      AdditionalLayerInformation.view =
      r.additional_layer_info.map AdditionalLayerInformation.view := by
    rw [List.map_map]
    exact List.map_congr_left fun a _ => addl_into_static_view a
  simp only [LayerRecord.view]
  rw [hch', htm', hum', hrm', haddl]
  rfl

/-! Tree level. -/

mutual

theorem tree_into_static_idem :
    ∀ (t t' : LayerTreeNode), LayerTreeNode.into_static t = some t' →
      LayerTreeNode.into_static t' = some t'
  | .Leaf r, t', h => by
    simp only [LayerTreeNode.into_static, Option.map_eq_some'] at h
    obtain ⟨r2, hr2, ht'⟩ := h
    subst ht'
    simp only [LayerTreeNode.into_static, Option.map_eq_some']
    exact ⟨r2, record_into_static_idem r r2 hr2, rfl⟩
  | .Node f cs, t', h => by
    simp only [LayerTreeNode.into_static, Option.bind_eq_some,
      Option.map_eq_some'] at h
    obtain ⟨f2, hf2, cs2, hcs2, ht'⟩ := h
    subst ht'
    simp only [LayerTreeNode.into_static, Option.bind_eq_some,
      Option.map_eq_some']
    exact ⟨f2, record_into_static_idem f f2 hf2, cs2,
      treeList_into_static_idem cs cs2 hcs2, rfl⟩

theorem treeList_into_static_idem :
    ∀ (l l' : List LayerTreeNode),
      LayerTreeNode.intoStaticList l = some l' →
      LayerTreeNode.intoStaticList l' = some l'
  | [], l', h => by
    simp only [LayerTreeNode.intoStaticList, Option.some.injEq] at h
    subst h
    rfl
  | t :: ts, l', h => by
    simp only [LayerTreeNode.intoStaticList, Option.bind_eq_some,
      Option.map_eq_some'] at h
    obtain ⟨t2, ht2, ts2, hts2, hl'⟩ := h
    subst hl'
    simp only [LayerTreeNode.intoStaticList, Option.bind_eq_some,
      Option.map_eq_some']
    exact ⟨t2, tree_into_static_idem t t2 ht2, ts2,
      treeList_into_static_idem ts ts2 hts2, rfl⟩

end

mutual

theorem tree_into_static_view :
    ∀ (t t' : LayerTreeNode), LayerTreeNode.into_static t = some t' →
      t'.view = t.view
  | .Leaf r, t', h => by
    simp only [LayerTreeNode.into_static, Option.map_eq_some'] at h
    obtain ⟨r2, hr2, ht'⟩ := h
    subst ht'
    simp only [LayerTreeNode.view]
    rw [record_into_static_view r r2 hr2]
  | .Node f cs, t', h => by
    simp only [LayerTreeNode.into_static, Option.bind_eq_some,
      Option.map_eq_some'] at h
    obtain ⟨f2, hf2, cs2, hcs2, ht'⟩ := h
    subst ht'
    simp only [LayerTreeNode.view]
    rw [record_into_static_view f f2 hf2,
      treeList_into_static_view cs cs2 hcs2]

theorem treeList_into_static_view :
    ∀ (l l' : List LayerTreeNode),
      LayerTreeNode.intoStaticList l = some l' →
      LayerTreeNode.viewList l' = LayerTreeNode.viewList l
  | [], l', h => by
    simp only [LayerTreeNode.intoStaticList, Option.some.injEq] at h
    subst h
    rfl
  | t :: ts, l', h => by
    simp only [LayerTreeNode.intoStaticList, Option.bind_eq_some,
      Option.map_eq_some'] at h
    obtain ⟨t2, ht2, ts2, hts2, hl'⟩ := h
    subst hl'
    simp only [LayerTreeNode.viewList]
    rw [tree_into_static_view t t2 ht2,
      treeList_into_static_view ts ts2 hts2]

end

/-! Resource and image-data level. -/

def blockView (b : ImageResourceBlock) : Nat × List Nat × List Nat :=
  (b.resource_id, b.name.val, b.resource_data.val)

theorem resources_into_static_idem (r : ImageResources) :
    r.into_static.into_static = r.into_static := by
  simp only [ImageResources.into_static]
  congr 1
  rw [List.map_map]
  exact List.map_congr_left fun b _ => rfl

theorem resources_into_static_view (r : ImageResources) :
    r.into_static.data.map blockView = r.data.map blockView := by
  simp only [ImageResources.into_static]
  rw [List.map_map]
  exact List.map_congr_left fun b _ => rfl

theorem imagedata_into_static_inv (d d' : ImageData)
    (h : ImageData.into_static d = some d') :
    ∃ planes, d.rawDataPlanes = some planes ∧
      d' = ⟨d.compression, .owned d.data.val, some (planes.map Cow.into_static),
            d.width, d.height, d.channels⟩ := by
  simp only [ImageData.into_static, Option.map_eq_some'] at h
  obtain ⟨planes, hp, hd⟩ := h
  exact ⟨planes, hp, hd.symm⟩

theorem imagedata_into_static_idem (d d' : ImageData)
    (h : ImageData.into_static d = some d') :
    ImageData.into_static d' = some d' := by
  obtain ⟨planes, hp, hd⟩ := imagedata_into_static_inv d d' h
  subst hd
  have hmm : (planes.map Cow.into_static).map Cow.into_static =
      planes.map Cow.into_static := by
    rw [List.map_map]
    exact List.map_congr_left fun c _ => cow_into_static_idem c
  unfold ImageData.into_static
  rw [show ImageData.rawDataPlanes
      ⟨d.compression, .owned d.data.val, some (planes.map Cow.into_static),
       d.width, d.height, d.channels⟩ = some (planes.map Cow.into_static)
    from rfl]
  simp only [Option.map_some']
  rw [hmm]
  rfl

theorem imagedata_into_static_view (d d' : ImageData)
    (h : ImageData.into_static d = some d') :
    d'.compression = d.compression ∧ d'.raw_data_val = d.raw_data_val := by
  obtain ⟨planes, hp, hd⟩ := imagedata_into_static_inv d d' h
  subst hd
  refine ⟨rfl, ?_⟩
  have h1 : ImageData.raw_data_val
      ⟨d.compression, .owned d.data.val, some (planes.map Cow.into_static),
       d.width, d.height, d.channels⟩ =
      some ((planes.map Cow.into_static).map Cow.val) := rfl
  have h2 : d.raw_data_val = some (planes.map Cow.val) := by
    unfold ImageData.raw_data_val
    rw [hp]
    rfl
  rw [h1, h2, List.map_map]
  congr 1

/-! Document level. -/

/-- C9: when detaching a parsed document succeeds, detaching again is a
no-op, and every public accessor — header, color-mode bytes, resource
blocks (id, name, data), the layer tree with all record fields, channel
bytes and decompressed planes, global mask info bytes, trailing
additional-info bytes, and the composite planes — returns the same
values on the detached document as on the original. -/
theorem C9_detach_idempotent_accessor_preserving :
    ∀ (P Q : Psd), Psd.into_static P = some Q →
      Psd.into_static Q = some Q ∧
      Q.header = P.header ∧
      Q.color_mode.data.val = P.color_mode.data.val ∧
      Q.image_resources.data.map blockView =
        P.image_resources.data.map blockView ∧
      LayerTreeNode.viewList Q.layer_information.layer_info =
        LayerTreeNode.viewList P.layer_information.layer_info ∧
      Q.layer_information.global_layer_mask_info.val =
        P.layer_information.global_layer_mask_info.val ∧
      Q.layer_information.additional_layer_information.val =
        P.layer_information.additional_layer_information.val ∧
      Q.image_data.compression = P.image_data.compression ∧
      Q.image_data.raw_data_val = P.image_data.raw_data_val := by
  intro P Q h
  simp only [Psd.into_static, Option.bind_eq_some, Option.map_eq_some'] at h
  obtain ⟨li, hli, idata, hidata, hQ⟩ := h
  simp only [LayerAndMaskInformation.into_static, Option.map_eq_some'] at hli
  obtain ⟨trees, htrees, hlieq⟩ := hli
  subst hlieq
  subst hQ
  have ht2 := treeList_into_static_idem _ _ htrees
  have hid2 := imagedata_into_static_idem _ _ hidata
  have hidv := imagedata_into_static_view _ _ hidata
  refine ⟨?_, rfl, cow_into_static_val _, resources_into_static_view _,
    treeList_into_static_view _ _ htrees, cow_into_static_val _,
    cow_into_static_val _, hidv.1, hidv.2⟩
  unfold Psd.into_static
  dsimp only
  unfold LayerAndMaskInformation.into_static
  dsimp only
  rw [ht2]
  simp only [Option.map_some', Option.some_bind]
  rw [hid2]
  simp only [Option.map_some', Option.some.injEq]
  rw [resources_into_static_idem]
  rfl

/-- A small concrete document: minimal header, 2 color-mode bytes, the S5
resource block, one leaf layer, raw 1×1×1 composite data. -/
def samplePsd : Psd :=
  ⟨⟨1, 3, 1, 1, 8, .RGB⟩, ⟨.borrowed [1, 2]⟩, ⟨[rbBlock]⟩,
   ⟨[.Leaf (mkLayer [65] [])], .borrowed [3], .borrowed [4]⟩,
   ⟨.Raw, .borrowed [5], none, 1, 1, 1⟩⟩

/-- The detached form of `samplePsd`: all slices owned, planes cached. -/
def samplePsdStatic : Psd :=
  ⟨⟨1, 3, 1, 1, 8, .RGB⟩, ⟨.owned [1, 2]⟩,
   ⟨[⟨7, .owned [0x61, 0x62, 0x63], .owned [9, 9, 9, 9, 9]⟩]⟩,
   ⟨[.Leaf ⟨0, 0, 0, 0, [], none, none, none, .Normal, 255, .Base, 0, none,
      .owned [], .owned [65], []⟩], .owned [3], .owned [4]⟩,
   ⟨.Raw, .owned [5], some [.owned [5]], 1, 1, 1⟩⟩

/-- Witness for C9: detaching the sample document succeeds, and the
theorem applied to it yields idempotence and accessor agreement. -/
theorem C9_detach_witness :
    Psd.into_static samplePsd = some samplePsdStatic ∧
    Psd.into_static samplePsdStatic = some samplePsdStatic := by
  refine ⟨rfl, ?_⟩
  exact (C9_detach_idempotent_accessor_preserving samplePsd samplePsdStatic
    rfl).1

end YaPsd
